import Mathlib

/-!
Shallow embedding of the conjunction-detection engine of
`src/services/conjunctionDetector.js` (plus the resolver dispatch it uses).

Modelling conventions:
* JavaScript numbers are embedded as `ℚ`.  The transcendental operations the
  source calls (`Math.sqrt`, `Math.cos`, `Math.sin`, `Math.PI`) are passed in
  as explicit function parameters, bundled in `MathExt`; every theorem below
  holds for an arbitrary interpretation of them unless it states a hypothesis
  (e.g. `sqrtQ 0 = 0`) that real square root satisfies.
* The SGP4 propagator (`satellite.js`'s `propagate`, reached through
  `propagateSatellite` in `satelliteService.js`) is external to the engine;
  it is embedded as a parameter `sgp4 : SatRec → ℚ → Option PV` over an
  abstract propagator-state type `SatRec`.  `none` models the `null` /
  missing-position outcome.
* `Option` models JavaScript `null`/`undefined` fields.  JS truthiness of a
  number is `≠ 0` (`altTruthy`); the altitude gate's `Math.abs(a - b) > 100`
  evaluates to `false` when either altitude is `undefined` (NaN comparison),
  which `altitudeGateSkip` reproduces.
* `Math.random()` is embedded as a stream `rand : ℕ → ℚ` indexed by call
  order (4 draws per fragment: x, y, z perturbation then size).
* `Date.now()` is embedded as a parameter `now : ℕ` (milliseconds).
* `Array.prototype.sort` is guaranteed sorted and stable by the JS spec; it
  is embedded as the stable insertion sort `stableSort`.
-/

namespace ConjEngine

/-- 3D vector with rational components ({x, y, z} objects in the source). -/
structure Vec3 where
  x : ℚ
  y : ℚ
  z : ℚ
deriving DecidableEq

/-- A resolved orbital state: position and (possibly absent) velocity, as
returned by the resolver functions in the source. -/
structure PV where
  position : Vec3
  velocity : Option Vec3
deriving DecidableEq

/-- External mathematical operations used by the source
(`Math.sqrt`, `Math.cos`, `Math.sin`, `Math.PI`). -/
structure MathExt where
  sqrtQ : ℚ → ℚ
  cosQ : ℚ → ℚ
  sinQ : ℚ → ℚ
  piQ : ℚ

/-- A tracked object (satellite or debris snapshot), with the fields the
detector reads.  `SatRec` is the abstract SGP4 propagator state. -/
structure Sat (SatRec : Type) where
  name : String
  satrec : Option SatRec
  altitude : Option ℚ
  latitude : Option ℚ
  longitude : Option ℚ
  position : Option Vec3
deriving DecidableEq

/-- `const EARTH_RADIUS_KM = 6371`. -/
def EARTH_RADIUS_KM : ℚ := 6371

/-- `const HIGH_RISK_THRESHOLD_KM = 1.0`. -/
def HIGH_RISK_THRESHOLD_KM : ℚ := 1

/-- `const PREDICTION_HORIZON_MINUTES = 30`. -/
def PREDICTION_HORIZON_MINUTES : ℚ := 30

/-- `const TIME_STEPS = 30`. -/
def TIME_STEPS : ℕ := 30

/-- `const GM = 398600.4418` (km³/s², inside `propagateSimple`). -/
def GM : ℚ := 3986004418 / 10000

/-- `calculateDistance3D`: Euclidean distance between two position vectors. -/
def calculateDistance3D (M : MathExt) (pos1 pos2 : Vec3) : ℚ :=
  let dx := pos1.x - pos2.x
  let dy := pos1.y - pos2.y
  let dz := pos1.z - pos2.z
  M.sqrtQ (dx * dx + dy * dy + dz * dz)

/-- `calculateRelativeVelocity`: Euclidean norm of the velocity difference. -/
def calculateRelativeVelocity (M : MathExt) (vel1 vel2 : Vec3) : ℚ :=
  let dvx := vel1.x - vel2.x
  let dvy := vel1.y - vel2.y
  let dvz := vel1.z - vel2.z
  M.sqrtQ (dvx * dvx + dvy * dvy + dvz * dvz)

/-- `propagateSatellite` (satelliteService.js): SGP4 propagation through the
external `satellite.propagate`; returns `null` without a satrec or when the
propagator yields no position. -/
def propagateSatellite {SatRec : Type} (sgp4 : SatRec → ℚ → Option PV)
    (sat : Sat SatRec) (minutesAhead : ℚ) : Option PV :=
  match sat.satrec with
  | none => none
  | some r => sgp4 r minutesAhead

/-- `propagateSimple`: analytic circular-orbit fallback for objects without
TLE data.  Requires altitude, latitude and longitude (checked by the caller);
returns `none` if they are absent (unreachable under the caller's guard). -/
def propagateSimple (M : MathExt) {SatRec : Type} (sat : Sat SatRec)
    (minutesAhead : ℚ) : Option PV :=
  match sat.altitude, sat.latitude, sat.longitude with
  | some alt, some lat0, some lon0 =>
    let orbitalRadius := EARTH_RADIUS_KM + alt
    let period := 2 * M.piQ * M.sqrtQ (orbitalRadius ^ 3 / GM) / 60
    let angularVelocity := 360 / period
    let displacement := angularVelocity * minutesAhead
    let newLon := lon0 + displacement
    let lat := lat0 * M.piQ / 180
    let lon := newLon * M.piQ / 180
    let position : Vec3 :=
      ⟨orbitalRadius * M.cosQ lat * M.cosQ lon,
       orbitalRadius * M.cosQ lat * M.sinQ lon,
       orbitalRadius * M.sinQ lat⟩
    let velocity := M.sqrtQ (GM / orbitalRadius)
    some ⟨position, some ⟨0, velocity, 0⟩⟩
  | _, _, _ => none

/-- JS truthiness of a possibly-missing number (`undefined` and `0` are
falsy). -/
def altTruthy : Option ℚ → Bool
  | none => false
  | some a => decide (a ≠ 0)

/-- `propagateSatellitePosition`: SGP4 when a satrec exists, else the simple
circular model when `sat.altitude && sat.latitude !== undefined &&
sat.longitude !== undefined`, else `null`. -/
def propagateSatellitePosition (M : MathExt) {SatRec : Type}
    (sgp4 : SatRec → ℚ → Option PV) (sat : Sat SatRec) (minutesAhead : ℚ) :
    Option PV :=
  if sat.satrec.isSome then propagateSatellite sgp4 sat minutesAhead
  else if altTruthy sat.altitude && sat.latitude.isSome && sat.longitude.isSome
  then propagateSimple M sat minutesAhead
  else none

/-- The sample indices `step = 0 .. TIME_STEPS` of the closest-approach loop. -/
def sampleSteps : List ℕ := List.range (TIME_STEPS + 1)

/-- `const minutesAhead = (step / TIME_STEPS) * PREDICTION_HORIZON_MINUTES`. -/
def stepTime (step : ℕ) : ℚ :=
  ((step : ℚ) / (TIME_STEPS : ℚ)) * PREDICTION_HORIZON_MINUTES

/-- The positions retained at the running minimum
(`closestPositions = {sat1, sat2}`). -/
structure Positions where
  sat1 : Vec3
  sat2 : Vec3
deriving DecidableEq

/-- The mutable locals of `findClosestApproach`'s loop.
`minDistance = none` models the `Infinity` initial value, and
`closestTime`/`closestPositions = none` model their `null` initial values. -/
structure Acc where
  minDistance : Option ℚ
  closestTime : Option ℚ
  closestRelVel : ℚ
  closestPositions : Option Positions
deriving DecidableEq

/-- `distance < minDistance` where `minDistance` may still be `Infinity`. -/
def ltInfinity (d : ℚ) : Option ℚ → Bool
  | none => true
  | some m => decide (d < m)

/-- One iteration of the `findClosestApproach` loop, abstracted over the two
objects' resolution functions `f` and `g`
(`minutesAhead ↦ propagateSatellitePosition(sat, minutesAhead)`). -/
def caStep (M : MathExt) (f g : ℚ → Option PV) (acc : Acc) (step : ℕ) : Acc :=
  match f (stepTime step), g (stepTime step) with
  | some pos1, some pos2 =>
    if ltInfinity (calculateDistance3D M pos1.position pos2.position)
        acc.minDistance then
      { minDistance := some (calculateDistance3D M pos1.position pos2.position)
        closestTime := some (stepTime step)
        closestRelVel :=
          match pos1.velocity, pos2.velocity with
          | some v1, some v2 => calculateRelativeVelocity M v1 v2
          | _, _ => acc.closestRelVel
        closestPositions := some ⟨pos1.position, pos2.position⟩ }
    else acc
  | _, _ => acc

/-- The whole time-stepping loop of `findClosestApproach`. -/
def caFold (M : MathExt) (f g : ℚ → Option PV) : Acc :=
  sampleSteps.foldl (caStep M f g) ⟨none, none, 0, none⟩

/-- The closest-approach record `findClosestApproach` returns. -/
structure CA where
  missDistance : ℚ
  timeToClosestApproach : ℚ
  relativeVelocity : ℚ
  positions : Positions
  timestampMs : ℚ
deriving DecidableEq

/-- `findClosestApproach`: loop over the horizon, then return `null` when
`minDistance === Infinity`, else the record.  The loop sets `minDistance`,
`closestTime` and `closestPositions` together, so the unreachable arms in
which they disagree return `none`. -/
def findClosestApproach (M : MathExt) {SatRec : Type}
    (sgp4 : SatRec → ℚ → Option PV) (now : ℕ) (sat1 sat2 : Sat SatRec) :
    Option CA :=
  let final := caFold M (fun t => propagateSatellitePosition M sgp4 sat1 t)
    (fun t => propagateSatellitePosition M sgp4 sat2 t)
  match final.minDistance, final.closestTime, final.closestPositions with
  | some d, some t, some ps =>
    some ⟨d, t, final.closestRelVel, ps, (now : ℚ) + t * 60000⟩
  | _, _, _ => none

/-- The risk tiers returned by `getRiskLevel` (strings in the source). -/
inductive RiskLevel where
  | CRITICAL
  | HIGH
  | ELEVATED
  | MODERATE
deriving DecidableEq

/-- `getRiskLevel`: tier from miss distance; the relative-velocity argument
is accepted but unused, exactly as in the source. -/
def getRiskLevel (missDistance relativeVelocity : ℚ) : RiskLevel :=
  if missDistance < 1 / 10 then RiskLevel.CRITICAL
  else if missDistance < 1 / 2 then RiskLevel.HIGH
  else if missDistance < 1 then RiskLevel.ELEVATED
  else RiskLevel.MODERATE

/-- A detected conjunction (`{ sat1, sat2, ...closestApproach, riskLevel,
id }`). -/
structure Conjunction (SatRec : Type) where
  sat1 : Sat SatRec
  sat2 : Sat SatRec
  missDistance : ℚ
  timeToClosestApproach : ℚ
  relativeVelocity : ℚ
  positions : Positions
  timestampMs : ℚ
  riskLevel : RiskLevel
  id : String
deriving DecidableEq

/-- The altitude gate:
`Math.abs(sat1.altitude - sat2.altitude) > 100`.  When either altitude is
`undefined` the JS comparison is `NaN > 100 = false`, so the pair is not
skipped; the `none` arms reproduce that. -/
def altitudeGateSkip {SatRec : Type} (sat1 sat2 : Sat SatRec) : Bool :=
  match sat1.altitude, sat2.altitude with
  | some a1, some a2 => decide (|a1 - a2| > 100)
  | _, _ => false

/-- The body of the pairwise loop of `detectConjunctions` for one pair:
gate, closest approach, threshold, then the conjunction record. -/
def evalPair (M : MathExt) {SatRec : Type} (sgp4 : SatRec → ℚ → Option PV)
    (now : ℕ) (sat1 sat2 : Sat SatRec) : Option (Conjunction SatRec) :=
  if altitudeGateSkip sat1 sat2 then none
  else
    match findClosestApproach M sgp4 now sat1 sat2 with
    | some ca =>
      if ca.missDistance < HIGH_RISK_THRESHOLD_KM then
        some
          { sat1 := sat1
            sat2 := sat2
            missDistance := ca.missDistance
            timeToClosestApproach := ca.timeToClosestApproach
            relativeVelocity := ca.relativeVelocity
            positions := ca.positions
            timestampMs := ca.timestampMs
            riskLevel := getRiskLevel ca.missDistance ca.relativeVelocity
            id := sat1.name ++ "-" ++ sat2.name ++ "-" ++ toString now }
      else none
    | none => none

/-- The index pairs `(i, j)` with `i < j` visited by the nested loops, in
visit order: for each head element, all pairs with the later elements, then
the pairs of the tail. -/
def allPairs {α : Type} : List α → List (α × α)
  | [] => []
  | x :: xs => xs.map (fun y => (x, y)) ++ allPairs xs

/-- `sat.satrec || sat.altitude`: the trackability filter predicate. -/
def trackable {SatRec : Type} (sat : Sat SatRec) : Bool :=
  sat.satrec.isSome || altTruthy sat.altitude

/-- `satellites.filter(sat => sat.satrec || sat.altitude)`. -/
def trackableOf {SatRec : Type} (satellites : List (Sat SatRec)) :
    List (Sat SatRec) :=
  satellites.filter trackable

/-- The list of conjunctions pushed by the pairwise loop, in push order. -/
def conjunctionsOf (M : MathExt) {SatRec : Type}
    (sgp4 : SatRec → ℚ → Option PV) (now : ℕ)
    (satellites : List (Sat SatRec)) : List (Conjunction SatRec) :=
  (allPairs (trackableOf satellites)).filterMap
    (fun p => evalPair M sgp4 now p.1 p.2)

/-- Stable insertion of `x` into `l`: `x` goes before the first element `y`
with `le x y` (so existing equal keys stay ahead of `x`). -/
def sortInsert {α : Type} (le : α → α → Bool) (x : α) : List α → List α
  | [] => [x]
  | y :: ys => if le x y then x :: y :: ys else y :: sortInsert le x ys

/-- Stable insertion sort, embedding the (stable, comparator-driven)
`Array.prototype.sort`. -/
def stableSort {α : Type} (le : α → α → Bool) : List α → List α
  | [] => []
  | x :: xs => sortInsert le x (stableSort le xs)

/-- The sort comparator `(a, b) => a.timeToClosestApproach -
b.timeToClosestApproach`, as the ordering it induces. -/
def timeLE {SatRec : Type} (a b : Conjunction SatRec) : Bool :=
  decide (a.timeToClosestApproach ≤ b.timeToClosestApproach)

/-- `detectConjunctions`: filter trackables, evaluate every unordered pair,
sort by time to closest approach and return the top 5. -/
def detectConjunctions (M : MathExt) {SatRec : Type}
    (sgp4 : SatRec → ℚ → Option PV) (now : ℕ)
    (satellites : List (Sat SatRec)) : List (Conjunction SatRec) :=
  (stableSort timeLE (conjunctionsOf M sgp4 now satellites)).take 5

/-- A debris fragment produced by `simulateDebrisCascade`. -/
structure Fragment where
  position : Vec3
  velocity : Vec3
  size : ℚ
  satellite1Name : String
  satellite2Name : String
  createdAtMs : ℕ
deriving DecidableEq

/-- `simulateDebrisCascade`: `floor(50 + relativeVelocity * 10)` fragments,
each with an independently drawn per-axis velocity perturbation
`(rand − 0.5) * relativeVelocity * 0.3`, a size `rand * 0.5`, and the first
object's predicted closest-approach position as start.  `rand` indexes the
successive `Math.random()` calls (4 per fragment, in source order). -/
def simulateDebrisCascade {SatRec : Type} (rand : ℕ → ℚ) (now : ℕ)
    (conjunction : Conjunction SatRec) : List Fragment :=
  let fragmentCount := Int.floor (50 + conjunction.relativeVelocity * 10)
  (List.range fragmentCount.toNat).map (fun i =>
    { position := conjunction.positions.sat1
      velocity :=
        ⟨(rand (4 * i) - 1 / 2) * conjunction.relativeVelocity * (3 / 10),
         (rand (4 * i + 1) - 1 / 2) * conjunction.relativeVelocity * (3 / 10),
         (rand (4 * i + 2) - 1 / 2) * conjunction.relativeVelocity * (3 / 10)⟩
      size := rand (4 * i + 3) * (1 / 2)
      satellite1Name := conjunction.sat1.name
      satellite2Name := conjunction.sat2.name
      createdAtMs := now })

/-- An entry of `identifyAffectedSatellites`' result. -/
structure ImpactRecord (SatRec : Type) where
  satellite : Sat SatRec
  riskLevel : RiskLevel
  reason : String
deriving DecidableEq

/-- `debris.some(frag => ...distance < 100)`; the `!sat.position` guard
returns `false`, and the `!frag.position` guard is vacuous because fragment
positions are never null in this pipeline. -/
def inDebrisZone (M : MathExt) {SatRec : Type} (debris : List Fragment)
    (sat : Sat SatRec) : Bool :=
  debris.any (fun frag =>
    match sat.position with
    | none => false
    | some p => decide (calculateDistance3D M p frag.position < 100))

/-- `identifyAffectedSatellites`: every catalog object within 100 km of some
fragment yields an ELEVATED "In debris field path" record. -/
def identifyAffectedSatellites (M : MathExt) {SatRec : Type}
    (debris : List Fragment) (allSatellites : List (Sat SatRec)) :
    List (ImpactRecord SatRec) :=
  allSatellites.filterMap (fun sat =>
    if inDebrisZone M debris sat then
      some ⟨sat, RiskLevel.ELEVATED, "In debris field path"⟩
    else none)

/-! ### Specification-side definitions -/

/-- Both objects resolved at time `t` (the sample is usable), with the two
resolved states. -/
def resolvedPair (M : MathExt) {SatRec : Type} (sgp4 : SatRec → ℚ → Option PV)
    (sat1 sat2 : Sat SatRec) (t : ℚ) : Option (PV × PV) :=
  match propagateSatellitePosition M sgp4 sat1 t,
        propagateSatellitePosition M sgp4 sat2 t with
  | some a, some b => some (a, b)
  | _, _ => none

/-- The contract of the closest-approach search (spec §4.2): `none` exactly
when no sample resolves (a record is returned as soon as some sample
resolves), otherwise the minimum sampled distance, attained at the reported
time offset, with the relative velocity taken at that instant. -/
def ClosestApproachSpec (M : MathExt) {SatRec : Type}
    (sgp4 : SatRec → ℚ → Option PV) (now : ℕ) (sat1 sat2 : Sat SatRec) :
    Prop :=
  ((∀ k ∈ sampleSteps, resolvedPair M sgp4 sat1 sat2 (stepTime k) = none) →
      findClosestApproach M sgp4 now sat1 sat2 = none) ∧
  ((∃ k ∈ sampleSteps, resolvedPair M sgp4 sat1 sat2 (stepTime k) ≠ none) →
      ∃ ca, findClosestApproach M sgp4 now sat1 sat2 = some ca) ∧
  ∀ ca, findClosestApproach M sgp4 now sat1 sat2 = some ca →
    ∃ k ∈ sampleSteps, ∃ p1 p2,
      propagateSatellitePosition M sgp4 sat1 (stepTime k) = some p1 ∧
      propagateSatellitePosition M sgp4 sat2 (stepTime k) = some p2 ∧
      ca.timeToClosestApproach = stepTime k ∧
      ca.missDistance = calculateDistance3D M p1.position p2.position ∧
      ca.positions = ⟨p1.position, p2.position⟩ ∧
      (∀ v1 v2, p1.velocity = some v1 → p2.velocity = some v2 →
        ca.relativeVelocity = calculateRelativeVelocity M v1 v2) ∧
      ∀ j ∈ sampleSteps, ∀ q1 q2,
        propagateSatellitePosition M sgp4 sat1 (stepTime j) = some q1 →
        propagateSatellitePosition M sgp4 sat2 (stepTime j) = some q2 →
        ca.missDistance ≤ calculateDistance3D M q1.position q2.position

/-- Invariant of the `findClosestApproach` loop after processing the sample
indices `ks`: either no sample resolved yet and the accumulator still holds
its initial values, or the running minimum is attained at some processed
sample (with time, positions and — when velocities were available there —
relative velocity taken from it), and it is a lower bound of every resolved
processed sample's distance. -/
def caInv (M : MathExt) (f g : ℚ → Option PV) (ks : List ℕ) (acc : Acc) :
    Prop :=
  (acc = ⟨none, none, 0, none⟩ ∨
    ∃ k ∈ ks, ∃ a b, f (stepTime k) = some a ∧ g (stepTime k) = some b ∧
      acc.minDistance = some (calculateDistance3D M a.position b.position) ∧
      acc.closestTime = some (stepTime k) ∧
      acc.closestPositions = some ⟨a.position, b.position⟩ ∧
      ∀ v1 v2, a.velocity = some v1 → b.velocity = some v2 →
        acc.closestRelVel = calculateRelativeVelocity M v1 v2) ∧
  ∀ k ∈ ks, ∀ a b, f (stepTime k) = some a → g (stepTime k) = some b →
    ∃ d, acc.minDistance = some d ∧
      d ≤ calculateDistance3D M a.position b.position

/-- Urgency rank of a risk tier (spec §4.3 table, most urgent highest). -/
def urgency : RiskLevel → ℕ
  | RiskLevel.MODERATE => 0
  | RiskLevel.ELEVATED => 1
  | RiskLevel.HIGH => 2
  | RiskLevel.CRITICAL => 3

/-- The risk-classifier contract (spec §4.3): the table, its boundary
values, velocity-independence, and monotonicity of urgency. -/
def RiskSpec (d d' v v' : ℚ) : Prop :=
  getRiskLevel d v = getRiskLevel d v' ∧
  (d < 1 / 10 → getRiskLevel d v = RiskLevel.CRITICAL) ∧
  (1 / 10 ≤ d → d < 1 / 2 → getRiskLevel d v = RiskLevel.HIGH) ∧
  (1 / 2 ≤ d → d < 1 → getRiskLevel d v = RiskLevel.ELEVATED) ∧
  (1 ≤ d → getRiskLevel d v = RiskLevel.MODERATE) ∧
  getRiskLevel (99 / 1000) v = RiskLevel.CRITICAL ∧
  getRiskLevel (1 / 10) v = RiskLevel.HIGH ∧
  getRiskLevel (499 / 1000) v = RiskLevel.HIGH ∧
  getRiskLevel (1 / 2) v = RiskLevel.ELEVATED ∧
  getRiskLevel (999 / 1000) v = RiskLevel.ELEVATED ∧
  getRiskLevel 1 v = RiskLevel.MODERATE ∧
  (d ≤ d' → urgency (getRiskLevel d' v') ≤ urgency (getRiskLevel d v))

/-- The impact-assessor contract (spec §4.6): the result is exactly the
in-zone objects mapped to ELEVATED "In debris field path" records; being in
the zone means having a position within 100 km of some fragment; an object
at a fragment's position is flagged (given `sqrt 0 = 0`); an object at
distance 200 from every fragment is not. -/
def ImpactSpec (M : MathExt) {SatRec : Type} (debris : List Fragment)
    (sats : List (Sat SatRec)) : Prop :=
  identifyAffectedSatellites M debris sats =
    (sats.filter (fun s => inDebrisZone M debris s)).map
      (fun s => ⟨s, RiskLevel.ELEVATED, "In debris field path"⟩) ∧
  (∀ s : Sat SatRec, inDebrisZone M debris s = true ↔
    ∃ p, s.position = some p ∧
      ∃ frag ∈ debris, calculateDistance3D M p frag.position < 100) ∧
  (∀ r ∈ identifyAffectedSatellites M debris sats,
    r.riskLevel = RiskLevel.ELEVATED ∧ r.reason = "In debris field path" ∧
      r.satellite.position.isSome = true) ∧
  (∀ s ∈ sats, ∀ p, s.position = some p →
    (∃ frag ∈ debris, frag.position = p) →
    (⟨s, RiskLevel.ELEVATED, "In debris field path"⟩ : ImpactRecord SatRec) ∈
      identifyAffectedSatellites M debris sats) ∧
  ∀ s : Sat SatRec, ∀ p, s.position = some p →
    (∀ frag ∈ debris, calculateDistance3D M p frag.position = 200) →
    ∀ r ∈ identifyAffectedSatellites M debris sats, r.satellite ≠ s

/-- The per-fragment contract of the cascade simulator (spec §4.5) for the
fragment of index `i`: exact per-axis perturbation, its ±0.15 × v bound,
size in [0, 0.5], and the first object's collision point as start. -/
def FragmentSpec {SatRec : Type} (rand : ℕ → ℚ) (c : Conjunction SatRec)
    (frag : Fragment) (i : ℕ) : Prop :=
  frag.velocity =
    ⟨(rand (4 * i) - 1 / 2) * c.relativeVelocity * (3 / 10),
     (rand (4 * i + 1) - 1 / 2) * c.relativeVelocity * (3 / 10),
     (rand (4 * i + 2) - 1 / 2) * c.relativeVelocity * (3 / 10)⟩ ∧
  |frag.velocity.x| ≤ 15 / 100 * c.relativeVelocity ∧
  |frag.velocity.y| ≤ 15 / 100 * c.relativeVelocity ∧
  |frag.velocity.z| ≤ 15 / 100 * c.relativeVelocity ∧
  0 ≤ frag.size ∧ frag.size ≤ 1 / 2 ∧
  frag.position = c.positions.sat1

/-- Two conjunctions involve the same unordered pair of objects. -/
def samePair {SatRec : Type} (c c' : Conjunction SatRec) : Prop :=
  (c.sat1 = c'.sat1 ∧ c.sat2 = c'.sat2) ∨
  (c.sat1 = c'.sat2 ∧ c.sat2 = c'.sat1)

/-! ### Concrete scenarios for witnesses and counterexamples -/

/-- Interpretation of the external math operations used by concrete
evaluations: an arbitrary computable stand-in (square root as the identity,
so `calculateDistance3D` returns the squared distance). -/
def M0 : MathExt := ⟨id, id, id, 0⟩

/-- A concrete propagator table over `SatRec := ℕ`: each satrec number is a
fixed inertial state, constant over the horizon. -/
def sgp4Demo : ℕ → ℚ → Option PV := fun n _ =>
  if n = 0 then some ⟨⟨0, 0, 0⟩, some ⟨0, 0, 0⟩⟩
  else if n = 1 then some ⟨⟨1 / 2, 0, 0⟩, some ⟨1, 0, 0⟩⟩
  else if n = 2 then some ⟨⟨0, 0, 0⟩, some ⟨0, 0, 0⟩⟩
  else if n = 3 then some ⟨⟨9 / 10, 0, 0⟩, some ⟨0, 0, 0⟩⟩
  else if n = 4 then some ⟨⟨1000, 0, 0⟩, some ⟨0, 0, 0⟩⟩
  else if n = 5 then some ⟨⟨1000, 1 / 2, 0⟩, some ⟨0, 0, 0⟩⟩
  else if n = 6 then some ⟨⟨0, 0, 0⟩, some ⟨0, 0, 0⟩⟩
  else if n = 7 then some ⟨⟨3 / 10, 0, 0⟩, some ⟨0, 0, 0⟩⟩
  else none

/-- Demo satellite A (satrec 0, altitude 500 km). -/
def satA : Sat ℕ := ⟨"A", some 0, some 500, none, none, some ⟨0, 0, 0⟩⟩

/-- Demo satellite B (satrec 1, altitude 500 km). -/
def satB : Sat ℕ := ⟨"B", some 1, some 500, none, none, some ⟨7000, 0, 0⟩⟩

/-- A malformed object: no satrec, no altitude, no position. -/
def satBad : Sat ℕ := ⟨"BAD", none, none, none, none, none⟩

/-- Tie-scenario satellites: two nearby pairs (TA, TB) and (TC, TD), both
closest at the first sample, with different miss distances. -/
def satTA : Sat ℕ := ⟨"TA", some 2, some 500, none, none, none⟩

/-- Tie-scenario satellite TB. -/
def satTB : Sat ℕ := ⟨"TB", some 3, some 500, none, none, none⟩

/-- Tie-scenario satellite TC. -/
def satTC : Sat ℕ := ⟨"TC", some 4, some 500, none, none, none⟩

/-- Tie-scenario satellite TD. -/
def satTD : Sat ℕ := ⟨"TD", some 5, some 500, none, none, none⟩

/-- An object with a propagator state but no altitude field (satrec 6). -/
def satX : Sat ℕ := ⟨"X", some 6, none, none, none, none⟩

/-- A well-formed partner for `satX` (satrec 7, altitude 500 km). -/
def satY : Sat ℕ := ⟨"Y", some 7, some 500, none, none, none⟩

/-- The conjunction `detectConjunctions M0 sgp4Demo 0 [satA, satB]`
produces (under `M0`, distances are squared distances). -/
def demoConj : Conjunction ℕ :=
  { sat1 := satA
    sat2 := satB
    missDistance := 1 / 4
    timeToClosestApproach := 0
    relativeVelocity := 1
    positions := ⟨⟨0, 0, 0⟩, ⟨1 / 2, 0, 0⟩⟩
    timestampMs := 0
    riskLevel := RiskLevel.HIGH
    id := "A-B-0" }

/-- The closest-approach record `findClosestApproach M0 sgp4Demo 0 satA
satB` returns (under `M0`, distances are squared distances). -/
def demoCA : CA :=
  { missDistance := 1 / 4
    timeToClosestApproach := 0
    relativeVelocity := 1
    positions := ⟨⟨0, 0, 0⟩, ⟨1 / 2, 0, 0⟩⟩
    timestampMs := 0 }

/-- A conjunction with relative velocity 10 km/s, for the cascade claims. -/
def demoConj10 : Conjunction ℕ :=
  { sat1 := satA
    sat2 := satB
    missDistance := 1 / 4
    timeToClosestApproach := 0
    relativeVelocity := 10
    positions := ⟨⟨0, 0, 0⟩, ⟨1 / 2, 0, 0⟩⟩
    timestampMs := 0
    riskLevel := RiskLevel.HIGH
    id := "A-B-0" }

/-- A concrete random stream: every draw is 1/2. -/
def demoRand : ℕ → ℚ := fun _ => 1 / 2

/-- A fragment at the origin, for the impact-assessor witness. -/
def demoFrag : Fragment :=
  { position := ⟨0, 0, 0⟩
    velocity := ⟨0, 0, 0⟩
    size := 1 / 4
    satellite1Name := "A"
    satellite2Name := "B"
    createdAtMs := 0 }

/-- A satellite sitting exactly at `demoFrag`'s position. -/
def satNear : Sat ℕ := ⟨"NEAR", none, some 500, none, none, some ⟨0, 0, 0⟩⟩

/-- A satellite whose `M0`-distance to `demoFrag` is 200. -/
def satFar : Sat ℕ := ⟨"FAR", none, some 500, none, none, some ⟨10, 10, 0⟩⟩

/-! ### Lemmas about the stable sort -/

/-- Inserting is a permutation of consing. -/
theorem sortInsert_perm {α : Type} (le : α → α → Bool) (x : α) :
    ∀ l : List α, List.Perm (sortInsert le x l) (x :: l)
  | [] => List.Perm.refl _
  | y :: ys => by
    unfold sortInsert
    by_cases h : le x y = true
    · simp [h]
    · rw [if_neg h]
      exact ((sortInsert_perm le x ys).cons y).trans (List.Perm.swap x y ys)

/-- The stable sort is a permutation of its input. -/
theorem stableSort_perm {α : Type} (le : α → α → Bool) :
    ∀ l : List α, List.Perm (stableSort le l) l
  | [] => List.Perm.refl _
  | x :: xs =>
    (sortInsert_perm le x (stableSort le xs)).trans
      ((stableSort_perm le xs).cons x)

/-- Members of an insertion. -/
theorem mem_sortInsert {α : Type} (le : α → α → Bool) (x a : α) (l : List α) :
    a ∈ sortInsert le x l ↔ a = x ∨ a ∈ l := by
  rw [(sortInsert_perm le x l).mem_iff]
  simp

/-- Insertion preserves sortedness, given a total transitive comparator. -/
theorem sortInsert_pairwise {α : Type} (le : α → α → Bool)
    (htot : ∀ a b, le a b = false → le b a = true)
    (htr : ∀ a b c, le a b = true → le b c = true → le a c = true) (x : α) :
    ∀ l : List α, List.Pairwise (fun a b => le a b = true) l →
      List.Pairwise (fun a b => le a b = true) (sortInsert le x l)
  | [], _ => by simp [sortInsert]
  | y :: ys, h => by
    rcases List.pairwise_cons.mp h with ⟨hy, hys⟩
    unfold sortInsert
    by_cases hxy : le x y = true
    · simp only [hxy, if_true]
      refine List.pairwise_cons.mpr ⟨?_, h⟩
      intro b hb
      rcases List.mem_cons.mp hb with rfl | hb
      · exact hxy
      · exact htr x y b hxy (hy b hb)
    · simp only [hxy, if_false]
      refine List.pairwise_cons.mpr ⟨?_, sortInsert_pairwise le htot htr x ys hys⟩
      intro b hb
      rcases (mem_sortInsert le x b ys).mp hb with rfl | hb
      · exact htot b y (Bool.eq_false_iff.mpr hxy) -- wait: need le x y = false
      · exact hy b hb

/-- The stable sort sorts, given a total transitive comparator. -/
theorem stableSort_pairwise {α : Type} (le : α → α → Bool)
    (htot : ∀ a b, le a b = false → le b a = true)
    (htr : ∀ a b c, le a b = true → le b c = true → le a c = true) :
    ∀ l : List α, List.Pairwise (fun a b => le a b = true) (stableSort le l)
  | [] => List.Pairwise.nil
  | x :: xs =>
    sortInsert_pairwise le htot htr x (stableSort le xs)
      (stableSort_pairwise le htot htr xs)

/-! ### Lemmas about the pair enumeration -/

/-- Components of an enumerated pair are members of the list. -/
theorem mem_allPairs {α : Type} :
    ∀ {l : List α} {p : α × α}, p ∈ allPairs l → p.1 ∈ l ∧ p.2 ∈ l := by
  intro l
  induction l with
  | nil => intro p hp; cases hp
  | cons x xs ih =>
    intro p hp
    rcases List.mem_append.mp hp with hp | hp
    · rcases List.mem_map.mp hp with ⟨y, hy, rfl⟩
      exact ⟨List.mem_cons_self x xs, List.mem_cons_of_mem x hy⟩
    · exact ⟨List.mem_cons_of_mem x (ih hp).1, List.mem_cons_of_mem x (ih hp).2⟩

/-- In a duplicate-free list, enumerated pairs have distinct components. -/
theorem allPairs_ne {α : Type} :
    ∀ {l : List α}, l.Nodup → ∀ {p : α × α}, p ∈ allPairs l → p.1 ≠ p.2 := by
  intro l
  induction l with
  | nil => intro _ p hp; cases hp
  | cons x xs ih =>
    intro hnd p hp
    rcases List.nodup_cons.mp hnd with ⟨hx, hxs⟩
    rcases List.mem_append.mp hp with hp | hp
    · rcases List.mem_map.mp hp with ⟨y, hy, rfl⟩
      intro h
      apply hx
      have h' : x = y := h
      rw [h']
      exact hy
    · exact ih hxs hp

/-- In a duplicate-free list, distinct enumerated pairs are distinct as
unordered pairs. -/
theorem allPairs_pairwise {α : Type} :
    ∀ {l : List α}, l.Nodup →
      List.Pairwise (fun p q : α × α =>
        ¬((p.1 = q.1 ∧ p.2 = q.2) ∨ (p.1 = q.2 ∧ p.2 = q.1))) (allPairs l) := by
  intro l
  induction l with
  | nil => exact fun _ => List.Pairwise.nil
  | cons x xs ih =>
    intro hnd
    rcases List.nodup_cons.mp hnd with ⟨hx, hxs⟩
    refine List.pairwise_append.mpr ⟨?_, ih hxs, ?_⟩
    · refine List.pairwise_map.mpr ?_
      refine List.Pairwise.imp ?_ hxs
      intro a b hab
      rintro (⟨-, h2⟩ | ⟨hxb, hax⟩)
      · exact hab h2
      · exact hab (hax.trans hxb)
    · intro p hp q hq
      rcases List.mem_map.mp hp with ⟨y, hy, rfl⟩
      have hq12 := mem_allPairs hq
      rintro (⟨h1, -⟩ | ⟨h1, -⟩)
      · apply hx
        have h1' : x = q.1 := h1
        rw [h1']
        exact hq12.1
      · apply hx
        have h1' : x = q.2 := h1
        rw [h1']
        exact hq12.2

/-! ### The closest-approach loop invariant -/

/-- The invariant holds initially. -/
theorem caInv_init (M : MathExt) (f g : ℚ → Option PV) :
    caInv M f g [] ⟨none, none, 0, none⟩ := by
  refine ⟨Or.inl rfl, ?_⟩
  intro k hk
  cases hk

/-- One loop iteration preserves the invariant. -/
theorem caStep_inv (M : MathExt) (f g : ℚ → Option PV) (pre : List ℕ) (k : ℕ)
    (acc : Acc) (h : caInv M f g pre acc) :
    caInv M f g (pre ++ [k]) (caStep M f g acc k) := by
  obtain ⟨h1, h2⟩ := h
  have hmemk : k ∈ pre ++ [k] := List.mem_append_right _ (List.mem_singleton_self k)
  have hkeep : ∀ (hstep : caStep M f g acc k = acc),
      (∀ a' b', f (stepTime k) = some a' → g (stepTime k) = some b' →
        ∃ d, acc.minDistance = some d ∧
          d ≤ calculateDistance3D M a'.position b'.position) →
      caInv M f g (pre ++ [k]) (caStep M f g acc k) := by
    intro hstep hnew
    rw [hstep]
    refine ⟨?_, ?_⟩
    · rcases h1 with h1 | ⟨k', hk', rest⟩
      · exact Or.inl h1
      · exact Or.inr ⟨k', List.mem_append_left _ hk', rest⟩
    · intro k' hk' a' b' ha' hb'
      rcases List.mem_append.mp hk' with hk' | hk'
      · exact h2 k' hk' a' b' ha' hb'
      · have hkk : k' = k := by simpa using hk'
        subst hkk
        exact hnew a' b' ha' hb'
  rcases hf : f (stepTime k) with _ | a
  · refine hkeep (by simp [caStep, hf]) ?_
    intro a' b' ha' _
    rw [hf] at ha'
    cases ha'
  · rcases hg : g (stepTime k) with _ | b
    · refine hkeep (by simp [caStep, hf, hg]) ?_
      intro a' b' _ hb'
      rw [hg] at hb'
      cases hb'
    · by_cases hlt : ltInfinity (calculateDistance3D M a.position b.position)
        acc.minDistance = true
      · have hstep : caStep M f g acc k =
            { minDistance :=
                some (calculateDistance3D M a.position b.position)
              closestTime := some (stepTime k)
              closestRelVel :=
                match a.velocity, b.velocity with
                | some v1, some v2 => calculateRelativeVelocity M v1 v2
                | _, _ => acc.closestRelVel
              closestPositions := some ⟨a.position, b.position⟩ } := by
          simp [caStep, hf, hg, hlt]
        rw [hstep]
        refine ⟨Or.inr ⟨k, hmemk, a, b, hf, hg, rfl, rfl, rfl, ?_⟩, ?_⟩
        · intro v1 v2 hv1 hv2
          simp only [hv1, hv2]
        · intro k' hk' a' b' ha' hb'
          refine ⟨_, rfl, ?_⟩
          rcases List.mem_append.mp hk' with hk' | hk'
          · obtain ⟨d0, hd0, hle⟩ := h2 k' hk' a' b' ha' hb'
            have hdlt : calculateDistance3D M a.position b.position < d0 := by
              rw [hd0] at hlt
              simpa [ltInfinity] using hlt
            exact le_trans (le_of_lt hdlt) hle
          · have hkk : k' = k := by simpa using hk'
            subst hkk
            rw [hf] at ha'
            rw [hg] at hb'
            cases ha'
            cases hb'
            exact le_refl _
      · rcases hmd : acc.minDistance with _ | m
        · exact absurd (by rw [hmd]; rfl) hlt
        · have hml : m ≤ calculateDistance3D M a.position b.position := by
            rw [hmd] at hlt
            simpa [ltInfinity, not_lt] using hlt
          refine hkeep (by simp [caStep, hf, hg, hlt]) ?_
          intro a' b' ha' hb'
          rw [hf] at ha'
          rw [hg] at hb'
          cases ha'
          cases hb'
          exact ⟨m, hmd, hml⟩

/-- The invariant after folding over any remaining sample indices. -/
theorem caFold_inv_aux (M : MathExt) (f g : ℚ → Option PV) :
    ∀ (ks pre : List ℕ) (acc : Acc), caInv M f g pre acc →
      caInv M f g (pre ++ ks) (ks.foldl (caStep M f g) acc)
  | [], pre, acc, h => by simpa using h
  | k :: ks, pre, acc, h => by
    have h2 := caFold_inv_aux M f g ks (pre ++ [k]) (caStep M f g acc k)
      (caStep_inv M f g pre k acc h)
    simpa [List.append_assoc] using h2

/-- The invariant holds for the whole loop of `findClosestApproach`. -/
theorem caFold_inv (M : MathExt) (f g : ℚ → Option PV) :
    caInv M f g sampleSteps (caFold M f g) := by
  have h := caFold_inv_aux M f g sampleSteps [] ⟨none, none, 0, none⟩
    (caInv_init M f g)
  simpa [caFold] using h

/-- Inside the horizon, `(step / TIME_STEPS) * PREDICTION_HORIZON_MINUTES`
is just `step` minutes. -/
theorem stepTime_eq_cast (k : ℕ) : stepTime k = (k : ℚ) := by
  unfold stepTime TIME_STEPS PREDICTION_HORIZON_MINUTES
  push_cast
  field_simp

/-- Sample times lie within `[0, PREDICTION_HORIZON_MINUTES]`. -/
theorem stepTime_bounds {k : ℕ} (hk : k ∈ sampleSteps) :
    0 ≤ stepTime k ∧ stepTime k ≤ PREDICTION_HORIZON_MINUTES := by
  have hk30 : k ≤ 30 := by
    have h := List.mem_range.mp (by simpa [sampleSteps] using hk)
    unfold TIME_STEPS at h
    omega
  rw [stepTime_eq_cast]
  refine ⟨by positivity, ?_⟩
  unfold PREDICTION_HORIZON_MINUTES
  exact_mod_cast hk30

/-- `findClosestApproach` satisfies the closest-approach contract. -/
theorem findClosestApproach_spec (M : MathExt) {SatRec : Type}
    (sgp4 : SatRec → ℚ → Option PV) (now : ℕ) (sat1 sat2 : Sat SatRec) :
    ClosestApproachSpec M sgp4 now sat1 sat2 := by
  obtain ⟨h1, h2⟩ := caFold_inv M
    (fun t => propagateSatellitePosition M sgp4 sat1 t)
    (fun t => propagateSatellitePosition M sgp4 sat2 t)
  refine ⟨?_, ?_, ?_⟩
  · intro hall
    simp only [findClosestApproach]
    rcases h1 with hinit | ⟨k, hk, a, b, ha, hb, -, -, -, -⟩
    · rw [hinit]
    · exfalso
      have ha' : propagateSatellitePosition M sgp4 sat1 (stepTime k) = some a := ha
      have hb' : propagateSatellitePosition M sgp4 sat2 (stepTime k) = some b := hb
      have hres := hall k hk
      unfold resolvedPair at hres
      rw [ha', hb'] at hres
      cases hres
  · rintro ⟨k, hk, hne⟩
    simp only [findClosestApproach]
    rcases hres1 : propagateSatellitePosition M sgp4 sat1 (stepTime k) with _ | a
    · exfalso
      apply hne
      simp [resolvedPair, hres1]
    · rcases hres2 : propagateSatellitePosition M sgp4 sat2 (stepTime k) with _ | b
      · exfalso
        apply hne
        simp [resolvedPair, hres1, hres2]
      · have ha' : (fun t => propagateSatellitePosition M sgp4 sat1 t)
            (stepTime k) = some a := hres1
        have hb' : (fun t => propagateSatellitePosition M sgp4 sat2 t)
            (stepTime k) = some b := hres2
        obtain ⟨d, hd, -⟩ := h2 k hk a b ha' hb'
        rcases h1 with hinit | ⟨k2, hk2, a2, b2, -, -, hmd2, hct2, hcp2, -⟩
        · rw [hinit] at hd
          cases hd
        · rw [hd, hct2, hcp2]
          exact ⟨_, rfl⟩
  · intro ca hca
    simp only [findClosestApproach] at hca
    set F := caFold M (fun t => propagateSatellitePosition M sgp4 sat1 t)
      (fun t => propagateSatellitePosition M sgp4 sat2 t) with hF
    rcases hmd : F.minDistance with _ | d
    · rw [hmd] at hca
      simp at hca
    · rcases hct : F.closestTime with _ | t
      · rw [hmd, hct] at hca
        simp at hca
      · rcases hcp : F.closestPositions with _ | ps
        · rw [hmd, hct, hcp] at hca
          simp at hca
        · rw [hmd, hct, hcp] at hca
          simp only [Option.some.injEq] at hca
          subst hca
          rcases h1 with hinit | ⟨k, hk, a, b, ha, hb, hmd', hct', hcp', hrv⟩
          · rw [hinit] at hmd
            cases hmd
          · have ha' : propagateSatellitePosition M sgp4 sat1 (stepTime k) = some a := ha
            have hb' : propagateSatellitePosition M sgp4 sat2 (stepTime k) = some b := hb
            rw [hmd] at hmd'
            rw [hct] at hct'
            rw [hcp] at hcp'
            obtain rfl : d = calculateDistance3D M a.position b.position :=
              Option.some.inj hmd'
            obtain rfl : t = stepTime k := Option.some.inj hct'
            obtain rfl : ps = ⟨a.position, b.position⟩ := Option.some.inj hcp'
            refine ⟨k, hk, a, b, ha', hb', rfl, rfl, rfl, ?_, ?_⟩
            · intro v1 v2 hv1 hv2
              exact hrv v1 v2 hv1 hv2
            · intro j hj q1 q2 hq1 hq2
              obtain ⟨d0, hd0, hle⟩ := h2 j hj q1 q2 hq1 hq2
              rw [hmd] at hd0
              obtain rfl : calculateDistance3D M a.position b.position = d0 :=
                Option.some.inj hd0
              exact hle

/-! ### Structural lemmas about `detectConjunctions` -/

/-- The time comparator is total. -/
theorem timeLE_total {SatRec : Type} (a b : Conjunction SatRec) :
    timeLE a b = false → timeLE b a = true := by
  intro h
  have h' := of_decide_eq_false h
  exact decide_eq_true (le_of_not_le h')

/-- The time comparator is transitive. -/
theorem timeLE_trans {SatRec : Type} (a b c : Conjunction SatRec) :
    timeLE a b = true → timeLE b c = true → timeLE a c = true := fun h1 h2 =>
  decide_eq_true (le_trans (of_decide_eq_true h1) (of_decide_eq_true h2))

/-- A successful pair evaluation: the gate passed, the closest approach
exists and beats the threshold, and the conjunction carries its fields. -/
theorem evalPair_eq_some {M : MathExt} {SatRec : Type}
    {sgp4 : SatRec → ℚ → Option PV} {now : ℕ} {s1 s2 : Sat SatRec}
    {c : Conjunction SatRec} (h : evalPair M sgp4 now s1 s2 = some c) :
    c.sat1 = s1 ∧ c.sat2 = s2 ∧ altitudeGateSkip s1 s2 = false ∧
    ∃ ca, findClosestApproach M sgp4 now s1 s2 = some ca ∧
      ca.missDistance < HIGH_RISK_THRESHOLD_KM ∧
      c.missDistance = ca.missDistance ∧
      c.timeToClosestApproach = ca.timeToClosestApproach ∧
      c.relativeVelocity = ca.relativeVelocity ∧
      c.positions = ca.positions := by
  unfold evalPair at h
  by_cases hgate : altitudeGateSkip s1 s2 = true
  · rw [if_pos hgate] at h
    cases h
  · rw [if_neg hgate] at h
    rcases hca : findClosestApproach M sgp4 now s1 s2 with _ | ca
    · rw [hca] at h
      simp at h
    · rw [hca] at h
      by_cases hth : ca.missDistance < HIGH_RISK_THRESHOLD_KM
      · simp only [hth, if_true] at h
        have h' := Option.some.inj h
        subst h'
        exact ⟨rfl, rfl, by simpa using hgate, ca, rfl, hth, rfl, rfl, rfl, rfl⟩
      · simp only [hth, if_false] at h
        simp at h

/-- Output membership implies membership in the pre-sort conjunction list. -/
theorem mem_detect {M : MathExt} {SatRec : Type}
    {sgp4 : SatRec → ℚ → Option PV} {now : ℕ} {sats : List (Sat SatRec)}
    {c : Conjunction SatRec} (h : c ∈ detectConjunctions M sgp4 now sats) :
    c ∈ conjunctionsOf M sgp4 now sats := by
  unfold detectConjunctions at h
  have h1 : c ∈ stableSort timeLE (conjunctionsOf M sgp4 now sats) :=
    (List.take_sublist 5 _).subset h
  exact (stableSort_perm timeLE _).mem_iff.mp h1

/-- Every output conjunction comes from an enumerated trackable pair. -/
theorem detect_pair {M : MathExt} {SatRec : Type}
    {sgp4 : SatRec → ℚ → Option PV} {now : ℕ} {sats : List (Sat SatRec)}
    {c : Conjunction SatRec} (h : c ∈ detectConjunctions M sgp4 now sats) :
    ∃ p ∈ allPairs (trackableOf sats), evalPair M sgp4 now p.1 p.2 = some c := by
  have h1 := mem_detect h
  unfold conjunctionsOf at h1
  exact List.mem_filterMap.mp h1

/-! ### Remaining helper lemmas -/

/-- A `filterMap` of an if-some-else-none function is a filter-then-map. -/
theorem filterMap_if {α β : Type} (p : α → Bool) (f : α → β) (l : List α) :
    l.filterMap (fun a => if p a then some (f a) else none) =
      (l.filter p).map f := by
  induction l with
  | nil => rfl
  | cons x xs ih =>
    by_cases hx : p x = true
    · simp [List.filterMap_cons, List.filter_cons, hx, ih]
    · simp [List.filterMap_cons, List.filter_cons, hx, ih]

/-- Characterisation of the debris-zone test. -/
theorem inDebrisZone_iff (M : MathExt) {SatRec : Type} (debris : List Fragment)
    (s : Sat SatRec) :
    inDebrisZone M debris s = true ↔
      ∃ p, s.position = some p ∧
        ∃ frag ∈ debris, calculateDistance3D M p frag.position < 100 := by
  unfold inDebrisZone
  rw [List.any_eq_true]
  rcases hpos : s.position with _ | p
  · constructor
    · rintro ⟨frag, -, hmatch⟩
      simp at hmatch
    · rintro ⟨q, hq, -⟩
      simp at hq
  · constructor
    · rintro ⟨frag, hfrag, hmatch⟩
      simp only [decide_eq_true_eq] at hmatch
      exact ⟨p, rfl, frag, hfrag, hmatch⟩
    · rintro ⟨q, hq, frag, hfrag, hd⟩
      obtain rfl : p = q := Option.some.inj hq
      exact ⟨frag, hfrag, by simpa using hd⟩

/-- The per-axis velocity perturbation is within ±0.15 × relativeVelocity. -/
theorem perturb_bound {r rv : ℚ} (h0 : 0 ≤ r) (h1 : r < 1) (hrv : 0 ≤ rv) :
    |(r - 1 / 2) * rv * (3 / 10)| ≤ 15 / 100 * rv := by
  have habs : |r - 1 / 2| ≤ 1 / 2 := abs_le.mpr ⟨by linarith, by linarith⟩
  have h2 : |(r - 1 / 2) * rv * (3 / 10)| = |r - 1 / 2| * rv * (3 / 10) := by
    rw [abs_mul, abs_mul, abs_of_nonneg hrv]
    norm_num
  rw [h2]
  nlinarith [habs, hrv, abs_nonneg (r - 1 / 2)]

/-- Inserting preserves, for every time value, the list of conjunctions
with that time: the inserted element goes in front of its time class
(every element it skips has a strictly smaller time). -/
theorem filter_sortInsert_time {SatRec : Type} (x : Conjunction SatRec)
    (t : ℚ) :
    ∀ l : List (Conjunction SatRec),
      (sortInsert timeLE x l).filter
          (fun c => decide (c.timeToClosestApproach = t)) =
        if x.timeToClosestApproach = t then
          x :: l.filter (fun c => decide (c.timeToClosestApproach = t))
        else l.filter (fun c => decide (c.timeToClosestApproach = t))
  | [] => by
    by_cases hx : x.timeToClosestApproach = t <;>
      simp [sortInsert, List.filter_cons, hx]
  | y :: ys => by
    by_cases hxy : timeLE x y = true
    · have hstep : sortInsert timeLE x (y :: ys) = x :: y :: ys := by
        unfold sortInsert
        rw [if_pos hxy]
      rw [hstep]
      by_cases hx : x.timeToClosestApproach = t <;>
        simp [List.filter_cons, hx]
    · have hstep : sortInsert timeLE x (y :: ys) =
          y :: sortInsert timeLE x ys := by
        show (if timeLE x y = true then x :: y :: ys
          else y :: sortInsert timeLE x ys) = y :: sortInsert timeLE x ys
        rw [if_neg hxy]
      have hyx : y.timeToClosestApproach < x.timeToClosestApproach := by
        have h := of_decide_eq_false (Bool.eq_false_iff.mpr hxy)
        exact lt_of_not_le h
      rw [hstep, List.filter_cons, filter_sortInsert_time x t ys]
      by_cases hx : x.timeToClosestApproach = t
      · have hy : ¬ y.timeToClosestApproach = t := by
          rw [← hx]
          exact ne_of_lt hyx
        simp [List.filter_cons, hx, hy]
      · by_cases hy : y.timeToClosestApproach = t <;>
          simp [List.filter_cons, hx, hy]

/-- The stable sort preserves, for every time value, the insertion order of
the conjunctions with that time (ties keep the enumeration order). -/
theorem filter_stableSort_time {SatRec : Type} (t : ℚ) :
    ∀ l : List (Conjunction SatRec),
      (stableSort timeLE l).filter
          (fun c => decide (c.timeToClosestApproach = t)) =
        l.filter (fun c => decide (c.timeToClosestApproach = t))
  | [] => rfl
  | x :: xs => by
    have h1 : stableSort timeLE (x :: xs) =
        sortInsert timeLE x (stableSort timeLE xs) := rfl
    rw [h1, filter_sortInsert_time]
    simp only [filter_stableSort_time t xs]
    rw [List.filter_cons]
    by_cases hx : x.timeToClosestApproach = t <;> simp [hx]

/-- A list sorted by time is uniquely determined by its time classes: two
time-sorted lists with the same per-time filters are equal. -/
theorem sorted_stable_unique {SatRec : Type} :
    ∀ l1 l2 : List (Conjunction SatRec),
      List.Pairwise (fun a b =>
        a.timeToClosestApproach ≤ b.timeToClosestApproach) l1 →
      List.Pairwise (fun a b =>
        a.timeToClosestApproach ≤ b.timeToClosestApproach) l2 →
      (∀ t : ℚ, l1.filter (fun c => decide (c.timeToClosestApproach = t)) =
        l2.filter (fun c => decide (c.timeToClosestApproach = t))) →
      l1 = l2
  | [], [], _, _, _ => rfl
  | [], b :: l2, _, _, hf => by
    exfalso
    have h := hf b.timeToClosestApproach
    simp at h
  | a :: l1, [], _, _, hf => by
    exfalso
    have h := hf a.timeToClosestApproach
    simp at h
  | a :: l1, b :: l2, h1, h2, hf => by
    rcases List.pairwise_cons.mp h1 with ⟨ha, h1t⟩
    rcases List.pairwise_cons.mp h2 with ⟨hb, h2t⟩
    have hab : a = b := by
      by_cases he : b.timeToClosestApproach = a.timeToClosestApproach
      · have h := hf a.timeToClosestApproach
        rw [List.filter_cons, List.filter_cons,
          if_pos (by simp), if_pos (by simp [he])] at h
        rw [List.cons_eq_cons] at h
        exact h.1
      · exfalso
        have hA := hf a.timeToClosestApproach
        rw [List.filter_cons, List.filter_cons,
          if_pos (by simp), if_neg (by simp [he])] at hA
        have hamem : a ∈ l2 := by
          have h3 : a ∈ List.filter
              (fun c => decide (c.timeToClosestApproach =
                a.timeToClosestApproach)) l2 := by
            rw [← hA]
            exact List.mem_cons_self a _
          exact (List.mem_filter.mp h3).1
        have hba := hb a hamem
        have hB := hf b.timeToClosestApproach
        rw [List.filter_cons, List.filter_cons,
          if_neg (by simp only [decide_eq_true_eq]; exact fun h => he h.symm),
          if_pos (by simp)] at hB
        have hbmem : b ∈ l1 := by
          have h3 : b ∈ List.filter
              (fun c => decide (c.timeToClosestApproach =
                b.timeToClosestApproach)) l1 := by
            rw [hB]
            exact List.mem_cons_self b _
          exact (List.mem_filter.mp h3).1
        have hab2 := ha b hbmem
        exact he (le_antisymm hba hab2)
    subst hab
    have hf2 : ∀ t : ℚ,
        l1.filter (fun c => decide (c.timeToClosestApproach = t)) =
          l2.filter (fun c => decide (c.timeToClosestApproach = t)) := by
      intro t
      have h := hf t
      by_cases hat : a.timeToClosestApproach = t
      · rw [List.filter_cons, List.filter_cons,
          if_pos (by simp [hat]), if_pos (by simp [hat])] at h
        rw [List.cons_eq_cons] at h
        exact h.2
      · rw [List.filter_cons, List.filter_cons,
          if_neg (by simp [hat]), if_neg (by simp [hat])] at h
        exact h
    rw [sorted_stable_unique l1 l2 h1t h2t hf2]

/-! ### Claim theorems -/

attribute [local semireducible] Rat.mul Rat.inv Rat.add Rat.sub

set_option maxRecDepth 1000000

/-- C1: for every surviving pair, the closest-approach search samples both
objects' resolved positions at `t = k/steps · horizon` for `k = 0..steps`,
skips samples where either object does not resolve, and returns the minimum
sampled distance, its time offset, and the relative-velocity magnitude at
that minimum-distance instant; if no sample resolves it reports no
conjunction (`none`). -/
theorem C1_closest_approach_search (M : MathExt) {SatRec : Type}
    (sgp4 : SatRec → ℚ → Option PV) (now : ℕ) (sat1 sat2 : Sat SatRec) :
    ClosestApproachSpec M sgp4 now sat1 sat2 :=
  findClosestApproach_spec M sgp4 now sat1 sat2

/-- Witness for C1: at a concrete resolvable pair the search returns a
concrete record, and applying the contract to that record yields the
minimum-distance properties. -/
theorem C1_witness :
    findClosestApproach M0 sgp4Demo 0 satA satB = some demoCA ∧
    (∃ k ∈ sampleSteps, ∃ p1 p2,
      propagateSatellitePosition M0 sgp4Demo satA (stepTime k) = some p1 ∧
      propagateSatellitePosition M0 sgp4Demo satB (stepTime k) = some p2 ∧
      demoCA.timeToClosestApproach = stepTime k ∧
      demoCA.missDistance = calculateDistance3D M0 p1.position p2.position ∧
      demoCA.positions = ⟨p1.position, p2.position⟩ ∧
      (∀ v1 v2, p1.velocity = some v1 → p2.velocity = some v2 →
        demoCA.relativeVelocity = calculateRelativeVelocity M0 v1 v2) ∧
      ∀ j ∈ sampleSteps, ∀ q1 q2,
        propagateSatellitePosition M0 sgp4Demo satA (stepTime j) = some q1 →
        propagateSatellitePosition M0 sgp4Demo satB (stepTime j) = some q2 →
        demoCA.missDistance ≤ calculateDistance3D M0 q1.position q2.position) :=
  ⟨by decide,
    (C1_closest_approach_search M0 sgp4Demo 0 satA satB).2.2 demoCA (by decide)⟩

/-- C2: the risk classifier matches the §4.3 table (including at the
boundary values), ignores the relative velocity, and is monotone: urgency
never decreases as miss distance decreases. -/
theorem C2_risk_classifier (d d' v v' : ℚ) : RiskSpec d d' v v' := by
  unfold RiskSpec
  refine ⟨rfl, ?_, ?_, ?_, ?_, ?_, ?_, ?_, ?_, ?_, ?_, ?_⟩
  · intro h
    unfold getRiskLevel
    rw [if_pos h]
  · intro h1 h2
    unfold getRiskLevel
    rw [if_neg (not_lt.mpr h1), if_pos h2]
  · intro h1 h2
    unfold getRiskLevel
    rw [if_neg (not_lt.mpr (le_trans (by norm_num) h1)),
      if_neg (not_lt.mpr h1), if_pos h2]
  · intro h
    unfold getRiskLevel
    rw [if_neg (not_lt.mpr (le_trans (by norm_num) h)),
      if_neg (not_lt.mpr (le_trans (by norm_num) h)), if_neg (not_lt.mpr h)]
  · norm_num [getRiskLevel]
  · norm_num [getRiskLevel]
  · norm_num [getRiskLevel]
  · norm_num [getRiskLevel]
  · norm_num [getRiskLevel]
  · norm_num [getRiskLevel]
  · intro hdd
    unfold getRiskLevel
    split_ifs <;> simp [urgency] <;> linarith

/-- Witness for C2 at concrete distances and velocities. -/
theorem C2_witness : RiskSpec 0 1 0 5 := C2_risk_classifier 0 1 0 5

/-- C3 counterexample: with four concrete objects, two conjunctions tie at
time offset 0 and the output keeps the one with larger miss distance
(81/100) before the smaller one (1/4): ties in `timeToClosestApproach` are
not broken by smaller `missDistance`. -/
theorem C3_counterexample :
    ((detectConjunctions M0 sgp4Demo 0 [satTA, satTB, satTC, satTD]).map
      (fun c => (c.timeToClosestApproach, c.missDistance))) =
        [(0, 81 / 100), (0, 1 / 4)] ∧
    ¬ List.Pairwise
        (fun a b : ℚ × ℚ => a.1 < b.1 ∨ (a.1 = b.1 ∧ a.2 ≤ b.2))
        ((detectConjunctions M0 sgp4Demo 0 [satTA, satTB, satTC, satTD]).map
          (fun c => (c.timeToClosestApproach, c.missDistance))) :=
  ⟨by decide, by decide⟩

/-- C3 (amended): the detection-cycle output equals the first 5 elements of
the sorted list `S = stableSort timeLE (conjunctionsOf …)`, where `S` is
completely characterized as THE rearrangement of the qualifying conjunctions
that is sorted ascending by `timeToClosestApproach` and keeps, for every
time value, the tied conjunctions in pair-enumeration (insertion) order —
no miss-distance tie-break: `S` is a permutation of the qualifying list,
sorted by time, its per-time filters coincide with the qualifying list's,
and any list with those two properties equals `S`. -/
theorem C3_registry_sorted (M : MathExt) {SatRec : Type}
    (sgp4 : SatRec → ℚ → Option PV) (now : ℕ) (sats : List (Sat SatRec)) :
    detectConjunctions M sgp4 now sats =
      (stableSort timeLE (conjunctionsOf M sgp4 now sats)).take 5 ∧
    List.Perm (stableSort timeLE (conjunctionsOf M sgp4 now sats))
      (conjunctionsOf M sgp4 now sats) ∧
    List.Pairwise
      (fun a b : Conjunction SatRec =>
        a.timeToClosestApproach ≤ b.timeToClosestApproach)
      (stableSort timeLE (conjunctionsOf M sgp4 now sats)) ∧
    (∀ t : ℚ,
      (stableSort timeLE (conjunctionsOf M sgp4 now sats)).filter
          (fun c => decide (c.timeToClosestApproach = t)) =
        (conjunctionsOf M sgp4 now sats).filter
          (fun c => decide (c.timeToClosestApproach = t))) ∧
    ∀ L : List (Conjunction SatRec),
      List.Pairwise
        (fun a b => a.timeToClosestApproach ≤ b.timeToClosestApproach) L →
      (∀ t : ℚ, L.filter (fun c => decide (c.timeToClosestApproach = t)) =
        (conjunctionsOf M sgp4 now sats).filter
          (fun c => decide (c.timeToClosestApproach = t))) →
      L = stableSort timeLE (conjunctionsOf M sgp4 now sats) := by
  have hsorted : List.Pairwise (fun a b : Conjunction SatRec =>
      a.timeToClosestApproach ≤ b.timeToClosestApproach)
      (stableSort timeLE (conjunctionsOf M sgp4 now sats)) := by
    refine (stableSort_pairwise timeLE timeLE_total timeLE_trans
      (conjunctionsOf M sgp4 now sats)).imp ?_
    intro a b h
    exact of_decide_eq_true h
  refine ⟨rfl, stableSort_perm timeLE _, hsorted,
    fun t => filter_stableSort_time t _, ?_⟩
  intro L hL hf
  refine sorted_stable_unique L _ hL hsorted ?_
  intro t
  rw [hf t, filter_stableSort_time t _]

/-- C4: a pair of tracked objects whose altitudes differ by more than
100 km is rejected by the candidate filter: every output conjunction's
objects have altitudes within 100 km of each other. -/
theorem C4_altitude_gate (M : MathExt) {SatRec : Type}
    (sgp4 : SatRec → ℚ → Option PV) (now : ℕ) (sats : List (Sat SatRec))
    (c : Conjunction SatRec) (hc : c ∈ detectConjunctions M sgp4 now sats)
    (a1 a2 : ℚ) (h1 : c.sat1.altitude = some a1)
    (h2 : c.sat2.altitude = some a2) : |a1 - a2| ≤ 100 := by
  obtain ⟨p, hp, he⟩ := detect_pair hc
  obtain ⟨hs1, hs2, hgate, -⟩ := evalPair_eq_some he
  have h1' : p.1.altitude = some a1 := by rw [← hs1]; exact h1
  have h2' : p.2.altitude = some a2 := by rw [← hs2]; exact h2
  unfold altitudeGateSkip at hgate
  rw [h1', h2'] at hgate
  simpa using hgate

/-- Witness for C4: a concrete in-gate conjunction. -/
theorem C4_witness :
    demoConj ∈ detectConjunctions M0 sgp4Demo 0 [satA, satB] ∧
    |(500 : ℚ) - 500| ≤ 100 :=
  ⟨by decide, C4_altitude_gate M0 sgp4Demo 0 [satA, satB] demoConj (by decide)
    500 500 (by decide) (by decide)⟩

/-- C5: every materialized conjunction has miss distance strictly below the
1 km threshold and a time to closest approach within the 30-minute
horizon. -/
theorem C5_conjunction_invariants (M : MathExt) {SatRec : Type}
    (sgp4 : SatRec → ℚ → Option PV) (now : ℕ) (sats : List (Sat SatRec))
    (c : Conjunction SatRec) (hc : c ∈ detectConjunctions M sgp4 now sats) :
    c.missDistance < HIGH_RISK_THRESHOLD_KM ∧
    0 ≤ c.timeToClosestApproach ∧
    c.timeToClosestApproach ≤ PREDICTION_HORIZON_MINUTES := by
  obtain ⟨p, hp, he⟩ := detect_pair hc
  obtain ⟨-, -, -, ca, hca, hth, hmd, hti, -, -⟩ := evalPair_eq_some he
  obtain ⟨-, -, hspec⟩ := findClosestApproach_spec M sgp4 now p.1 p.2
  obtain ⟨k, hk, p1, p2, -, -, htime, -, -, -, -⟩ := hspec ca hca
  have hb := stepTime_bounds hk
  refine ⟨by rw [hmd]; exact hth, ?_, ?_⟩
  · rw [hti, htime]
    exact hb.1
  · rw [hti, htime]
    exact hb.2

/-- Witness for C5: a concrete output conjunction. -/
theorem C5_witness :
    demoConj ∈ detectConjunctions M0 sgp4Demo 0 [satA, satB] ∧
    demoConj.missDistance < HIGH_RISK_THRESHOLD_KM ∧
    0 ≤ demoConj.timeToClosestApproach ∧
    demoConj.timeToClosestApproach ≤ PREDICTION_HORIZON_MINUTES :=
  ⟨by decide,
    C5_conjunction_invariants M0 sgp4Demo 0 [satA, satB] demoConj (by decide)⟩

/-- Distance of a point to itself is the square root of 0. -/
theorem dist_self (M : MathExt) (p : Vec3) :
    calculateDistance3D M p p = M.sqrtQ 0 := by
  unfold calculateDistance3D
  simp

/-- C6: the impact assessor flags exactly the objects within 100 km of some
fragment, produces ELEVATED "In debris field path" records, silently skips
objects without a position, always flags an object at a fragment's position,
and never flags an object at distance 200 from every fragment. -/
theorem C6_impact_assessor (M : MathExt) {SatRec : Type}
    (debris : List Fragment) (sats : List (Sat SatRec)) (h0 : M.sqrtQ 0 = 0) :
    ImpactSpec M debris sats := by
  have heq : identifyAffectedSatellites M debris sats =
      (sats.filter (fun s => inDebrisZone M debris s)).map
        (fun s => ⟨s, RiskLevel.ELEVATED, "In debris field path"⟩) := by
    unfold identifyAffectedSatellites
    exact filterMap_if (fun s => inDebrisZone M debris s) _ sats
  refine ⟨heq, fun s => inDebrisZone_iff M debris s, ?_, ?_, ?_⟩
  · intro r hr
    rw [heq] at hr
    rcases List.mem_map.mp hr with ⟨s, hs, rfl⟩
    have hz := (List.mem_filter.mp hs).2
    obtain ⟨p, hp, -⟩ := (inDebrisZone_iff M debris s).mp hz
    exact ⟨rfl, rfl, by rw [hp]; rfl⟩
  · intro s hsmem p hp hex
    obtain ⟨frag, hfrag, hfp⟩ := hex
    have hdist : calculateDistance3D M p frag.position < 100 := by
      rw [hfp, dist_self, h0]
      norm_num
    rw [heq]
    refine List.mem_map.mpr ⟨s, ?_, rfl⟩
    refine List.mem_filter.mpr ⟨hsmem, ?_⟩
    exact (inDebrisZone_iff M debris s).mpr ⟨p, hp, frag, hfrag, hdist⟩
  · intro s p hp hall r hr
    rw [heq] at hr
    rcases List.mem_map.mp hr with ⟨s1, hs1, rfl⟩
    intro hcontra
    have hss : s1 = s := hcontra
    subst hss
    have hz := (List.mem_filter.mp hs1).2
    obtain ⟨q, hq, frag, hfrag, hd⟩ := (inDebrisZone_iff M debris s1).mp hz
    obtain rfl : p = q := by
      rw [hp] at hq
      exact Option.some.inj hq
    have h200 := hall frag hfrag
    rw [h200] at hd
    norm_num at hd

/-- Witness for C6: one fragment at the origin, one object on it, one at
distance 200 and one without a position. -/
theorem C6_witness : ImpactSpec M0 [demoFrag] [satNear, satFar, satBad] :=
  C6_impact_assessor M0 [demoFrag] [satNear, satFar, satBad] rfl

/-- C7: the cascade simulator produces exactly
`floor(50 + relativeVelocity * 10)` fragments, independently of the random
source (and of the creation time). -/
theorem C7_fragment_count {SatRec : Type} (rand rand' : ℕ → ℚ)
    (now now' : ℕ) (c : Conjunction SatRec) (h : 0 ≤ c.relativeVelocity) :
    ((simulateDebrisCascade rand now c).length : ℤ) =
      Int.floor (50 + c.relativeVelocity * 10) ∧
    (simulateDebrisCascade rand now c).length =
      (simulateDebrisCascade rand' now' c).length := by
  have hlen : ∀ (r : ℕ → ℚ) (n : ℕ), (simulateDebrisCascade r n c).length =
      (Int.floor (50 + c.relativeVelocity * 10)).toNat := by
    intro r n
    unfold simulateDebrisCascade
    simp
  have hq : (0 : ℚ) ≤ 50 + c.relativeVelocity * 10 := by
    have h10 := mul_nonneg h (by norm_num : (0 : ℚ) ≤ 10)
    linarith
  have hpos : (0 : ℤ) ≤ Int.floor (50 + c.relativeVelocity * 10) :=
    Int.floor_nonneg.mpr hq
  refine ⟨?_, by rw [hlen rand now, hlen rand' now']⟩
  rw [hlen rand now]
  exact Int.toNat_of_nonneg hpos

/-- Witness for C7: relative velocity 10 km/s yields exactly 150
fragments. -/
theorem C7_witness :
    (0 : ℚ) ≤ demoConj10.relativeVelocity ∧
    (simulateDebrisCascade demoRand 0 demoConj10).length = 150 := by
  have h := (C7_fragment_count demoRand demoRand 0 0 demoConj10 (by decide)).1
  refine ⟨by decide, ?_⟩
  have hfl : Int.floor (50 + demoConj10.relativeVelocity * 10) = (150 : ℤ) := by
    decide
  rw [hfl] at h
  exact_mod_cast h

/-- C8: every fragment starts at the first object's predicted collision
point, has per-axis perturbation `(rand − 0.5) · v · 0.3` (hence within
±0.15 · v) and size in [0, 0.5]. -/
theorem C8_fragment_contract {SatRec : Type} (rand : ℕ → ℚ) (now : ℕ)
    (c : Conjunction SatRec) (hrand : ∀ n, 0 ≤ rand n ∧ rand n < 1)
    (hrv : 0 ≤ c.relativeVelocity) (i : ℕ)
    (hi : i < (simulateDebrisCascade rand now c).length) :
    FragmentSpec rand c ((simulateDebrisCascade rand now c).get ⟨i, hi⟩) i := by
  have hget : (simulateDebrisCascade rand now c).get ⟨i, hi⟩ =
      { position := c.positions.sat1
        velocity :=
          ⟨(rand (4 * i) - 1 / 2) * c.relativeVelocity * (3 / 10),
           (rand (4 * i + 1) - 1 / 2) * c.relativeVelocity * (3 / 10),
           (rand (4 * i + 2) - 1 / 2) * c.relativeVelocity * (3 / 10)⟩
        size := rand (4 * i + 3) * (1 / 2)
        satellite1Name := c.sat1.name
        satellite2Name := c.sat2.name
        createdAtMs := now } := by
    simp [simulateDebrisCascade, List.get_eq_getElem]
  rw [hget]
  unfold FragmentSpec
  refine ⟨rfl, ?_, ?_, ?_, ?_, ?_, rfl⟩
  · exact perturb_bound (hrand (4 * i)).1 (hrand (4 * i)).2 hrv
  · exact perturb_bound (hrand (4 * i + 1)).1 (hrand (4 * i + 1)).2 hrv
  · exact perturb_bound (hrand (4 * i + 2)).1 (hrand (4 * i + 2)).2 hrv
  · exact mul_nonneg (hrand (4 * i + 3)).1 (by norm_num)
  · have h1 := (hrand (4 * i + 3)).2
    linarith

/-- The demo cascade is nonempty (150 fragments). -/
theorem demoCascadeLen_pos :
    0 < (simulateDebrisCascade demoRand 0 demoConj10).length := by decide

/-- Witness for C8: the first fragment of a concrete cascade. -/
theorem C8_witness :
    FragmentSpec demoRand demoConj10
      ((simulateDebrisCascade demoRand 0 demoConj10).get
        ⟨0, demoCascadeLen_pos⟩) 0 :=
  C8_fragment_contract demoRand 0 demoConj10
    (fun n => ⟨by norm_num [demoRand], by norm_num [demoRand]⟩)
    (by norm_num [demoConj10]) 0 demoCascadeLen_pos

/-- C9 counterexample: `satX` has a propagator state but no altitude, yet it
is not excluded: it contributes the (only) output conjunction of a concrete
cycle, as its first object. -/
theorem C9_counterexample :
    satX.altitude = none ∧
    ((detectConjunctions M0 sgp4Demo 0 [satX, satY]).map
      (fun c => c.sat1.name)) = ["X"] :=
  ⟨rfl, by decide⟩

/-- C9 (amended): an object with neither a propagator state nor a truthy
altitude fails the trackability filter and is excluded from the cycle: no
output conjunction involves it.  (An object with a propagator state but no
altitude is still evaluated — the altitude-gate comparison is false for it —
and may contribute conjunctions; no exception arises either way, the
detection function being total.) -/
theorem C9_malformed_excluded (M : MathExt) {SatRec : Type}
    (sgp4 : SatRec → ℚ → Option PV) (now : ℕ) (sats : List (Sat SatRec))
    (s : Sat SatRec) (hs : s.satrec = none)
    (halt : altTruthy s.altitude = false) :
    ∀ c ∈ detectConjunctions M sgp4 now sats, c.sat1 ≠ s ∧ c.sat2 ≠ s := by
  intro c hc
  obtain ⟨p, hp, he⟩ := detect_pair hc
  obtain ⟨hs1, hs2, -⟩ := evalPair_eq_some he
  have hmem := mem_allPairs hp
  have h1 : trackable p.1 = true := (List.mem_filter.mp hmem.1).2
  have h2 : trackable p.2 = true := (List.mem_filter.mp hmem.2).2
  have hsF : trackable s = false := by
    unfold trackable
    rw [hs, halt]
    rfl
  constructor
  · rw [hs1]
    intro hx
    rw [hx, hsF] at h1
    cases h1
  · rw [hs2]
    intro hx
    rw [hx, hsF] at h2
    cases h2

/-- Witness for C9 (amended): the malformed `satBad` is excluded from a
concrete cycle that still detects a conjunction between the others. -/
theorem C9_witness :
    satBad.satrec = none ∧ altTruthy satBad.altitude = false ∧
    demoConj ∈ detectConjunctions M0 sgp4Demo 0 [satA, satB, satBad] ∧
    demoConj.sat1 ≠ satBad ∧ demoConj.sat2 ≠ satBad := by
  refine ⟨rfl, rfl, by decide, ?_⟩
  exact C9_malformed_excluded M0 sgp4Demo 0 [satA, satB, satBad] satBad rfl rfl
    demoConj (by decide)

/-- C10: with a duplicate-free snapshot, every output conjunction pairs two
distinct objects, and no two output conjunctions involve the same unordered
pair (each unordered pair is visited once and never an object with
itself). -/
theorem C10_pairs_distinct (M : MathExt) {SatRec : Type}
    (sgp4 : SatRec → ℚ → Option PV) (now : ℕ) (sats : List (Sat SatRec))
    (hnd : sats.Nodup) :
    (∀ c ∈ detectConjunctions M sgp4 now sats, c.sat1 ≠ c.sat2) ∧
    List.Pairwise (fun c c' => ¬ samePair c c')
      (detectConjunctions M sgp4 now sats) := by
  have hndt : (trackableOf sats).Nodup := hnd.filter _
  constructor
  · intro c hc
    obtain ⟨p, hp, he⟩ := detect_pair hc
    obtain ⟨hs1, hs2, -⟩ := evalPair_eq_some he
    rw [hs1, hs2]
    exact allPairs_ne hndt hp
  · have hpairs := allPairs_pairwise hndt
    have hconj : List.Pairwise (fun c c' => ¬ samePair c c')
        (conjunctionsOf M sgp4 now sats) := by
      unfold conjunctionsOf
      rw [List.pairwise_filterMap]
      refine hpairs.imp ?_
      intro p q hpq c hc c' hc'
      obtain ⟨h1, h2, -⟩ := evalPair_eq_some (Option.mem_def.mp hc)
      obtain ⟨h1', h2', -⟩ := evalPair_eq_some (Option.mem_def.mp hc')
      unfold samePair
      rw [h1, h2, h1', h2']
      exact hpq
    have hsym : ∀ {x y : Conjunction SatRec}, ¬ samePair x y → ¬ samePair y x := by
      intro x y h hxy
      apply h
      unfold samePair at hxy ⊢
      rcases hxy with ⟨ha, hb⟩ | ⟨ha, hb⟩
      · exact Or.inl ⟨ha.symm, hb.symm⟩
      · exact Or.inr ⟨hb.symm, ha.symm⟩
    have hsorted : List.Pairwise (fun c c' => ¬ samePair c c')
        (stableSort timeLE (conjunctionsOf M sgp4 now sats)) :=
      ((stableSort_perm timeLE _).pairwise_iff hsym).mpr hconj
    exact hsorted.sublist (List.take_sublist 5 _)

/-- Witness for C10: a concrete duplicate-free cycle with one output
conjunction whose two objects are distinct. -/
theorem C10_witness :
    [satA, satB].Nodup ∧
    demoConj ∈ detectConjunctions M0 sgp4Demo 0 [satA, satB] ∧
    demoConj.sat1 ≠ demoConj.sat2 := by
  refine ⟨by decide, by decide, ?_⟩
  exact (C10_pairs_distinct M0 sgp4Demo 0 [satA, satB] (by decide)).1 demoConj
    (by decide)

end ConjEngine
